import Mathlib

/-!
# Verification of the qt-tour guided-tour engine

A shallow embedding of `src/qttour/__init__.py` (the `qt-tour` package):
the tour state machine (`TourManager`), the global input filter
(`DisabledClickEventFilter`, the "InputGate"), the coachmark widget's
close protocol (`CoachmarkWidget`), and the step/sequence data types.

Conventions of the embedding:
* Qt's `eventFilter` returns `true` to consume (filter out) an event and
  `false` to let it pass; the embedding keeps that convention.
* `underMouse()` is modelled as "the cursor position lies inside the
  widget's global bounding rectangle".
* Signal emissions are modelled as an explicit event trace (`TourEvent`).
* Python object aliasing (needed for `TourSequence.steps`) is modelled by
  an explicit store of lists indexed by references.
-/

namespace QtTour

/-- A point in global screen coordinates. -/
structure Point where
  x : Int
  y : Int
deriving DecidableEq, Repr

/-- An axis-aligned rectangle in global screen coordinates, as produced by
`global_rect` in the source. -/
structure Rect where
  x : Int
  y : Int
  w : Int
  h : Int
deriving DecidableEq, Repr

/-- Membership of a point in a rectangle (Qt `QRect.contains` over the
widget's on-screen bounds; this is what `QWidget.underMouse()` reports for
the current cursor position). -/
def Rect.containsPt (r : Rect) (p : Point) : Bool :=
  r.x ≤ p.x && p.x < r.x + r.w && r.y ≤ p.y && p.y < r.y + r.h

/-- The event types distinguished by `DisabledClickEventFilter.eventFilter`:
a mouse-button press, or anything else. -/
inductive QEventType where
  | mouseButtonPress
  | other
deriving DecidableEq, Repr

/-- `DisabledClickEventFilter.eventFilter` from the source, faithfully:

```
if isinstance(event, QMouseEvent) and event.type() == QEvent.Type.MouseButtonPress:
    if self._widget is None or self._mark is None:
        return True
    if self._mark.underMouse():
        return False
    elif self._widget.underMouse():
        return False
    return True
return super(DisabledClickEventFilter, self).eventFilter(watched, event)
```

`widget` and `mark` are the registered target widget's and coachmark's
global bounds (`none` when not registered); `cursor` is the pointer
position; the result `true` means the event is consumed (suppressed),
`false` means it is allowed through.  The base-class `eventFilter`
returns `false` (does not filter). -/
def eventFilter (widget mark : Option Rect) (cursor : Point) (t : QEventType) : Bool :=
  match t with
  | .mouseButtonPress =>
    match widget, mark with
    | some w, some m =>
      if m.containsPt cursor then false
      else if w.containsPt cursor then false
      else true
    | _, _ => true
  | .other => false

/-- `TourStep` from the source: target widget reference (by identity),
whether that widget is a `QAbstractButton` (the only kind on which
`_next` synthesizes a click), message text, action-button label and the
`delegateClick` flag. `id` is the step object's identity, used to tag its
`finished` signal in the event trace. -/
structure TourStep where
  id : Nat
  widgetId : Nat
  isButton : Bool
  message : String
  action : String
  delegateClick : Bool
deriving DecidableEq, Repr

/-- The signal emissions of a tour run, in order: `tourStarted` and
`tourFinished` from the manager, `stepFinished` for a step's `finished`
signal, and `pressSynthesized` for the `wdg.click()` call made by `_next`
when delegating. -/
inductive TourEvent where
  | tourStarted
  | tourFinished
  | stepFinished (stepId : Nat)
  | pressSynthesized (widgetId : Nat)
deriving DecidableEq, Repr

/-- The state of a `CoachmarkWidget` as seen by the manager: the step it
was built for and whether it is still shown (it closes itself in `_click`
before emitting `clicked`). -/
structure MarkState where
  step : TourStep
  shown : Bool
deriving DecidableEq, Repr

/-- The fields of `TourManager` (plus the fields of its
`DisabledClickEventFilter` and whether that filter is installed on the
application). `sequence` holds the contents of the list the current
`TourSequence` refers to; `overlay` records whether the dimming overlay
widget exists. -/
structure ManagerState where
  started : Bool
  finishNext : Bool
  stepIndex : Nat
  sequence : Option (List TourStep)
  mark : Option MarkState
  currentStep : Option TourStep
  overlay : Bool
  gateInstalled : Bool
  gateWidget : Option Nat
  gateMark : Bool
deriving DecidableEq, Repr

/-- The freshly-constructed `TourManager` (its `__init__`). -/
def initState : ManagerState :=
  { started := false, finishNext := false, stepIndex := 0, sequence := none,
    mark := none, currentStep := none, overlay := false,
    gateInstalled := false, gateWidget := none, gateMark := false }

/-- `TourManager.start`: set `_started`, install the event filter on the
application, emit `tourStarted`. -/
def start (s : ManagerState) : ManagerState × List TourEvent :=
  ({ s with started := true, gateInstalled := true }, [.tourStarted])

/-- `TourManager._activate`: record the current step, point the filter at
the step's widget, construct a new `CoachmarkWidget` for the step, ensure
the overlay exists (created on first activation, reused afterwards), hand
the mark to the filter and show it. -/
def activate (s : ManagerState) (step : TourStep) : ManagerState :=
  { s with currentStep := some step,
           gateWidget := some step.widgetId,
           mark := some { step := step, shown := true },
           overlay := true,
           gateMark := true }

/-- `TourManager.run`: call `start` if not yet started, record
`finishTour` and the sequence, return early when the sequence has no
steps, otherwise reset `_stepIndex` to 0 and activate the first step. -/
def run (s : ManagerState) (seq : List TourStep) (finishTour : Bool) :
    ManagerState × List TourEvent :=
  let p := if s.started then (s, []) else start s
  let s2 := { p.1 with finishNext := finishTour, sequence := some seq }
  match seq with
  | [] => (s2, p.2)
  | st :: _ => (activate { s2 with stepIndex := 0 } st, p.2)

/-- `TourManager.finish`: remove the event filter, drop the mark, clear
`_started`, emit `tourFinished`, and tear down the overlay if present.
`_stepIndex`, `_sequence` and `_currentStep` are left as they are. -/
def finish (s : ManagerState) : ManagerState × List TourEvent :=
  let s1 := { s with gateInstalled := false, mark := none, started := false }
  let s2 := if s1.overlay then { s1 with overlay := false } else s1
  (s2, [.tourFinished])

/-- The slots connected to the steps' `finished` signals: emitting
`finished` on the step with identity `stepId` synchronously runs the
connected handlers, which may mutate the running sequence's list (the
demo appends a step from such a handler). `Handlers stepId` maps the
list's contents before the emission to its contents after. -/
def Handlers : Type := Nat → List TourStep → List TourStep

/-- The handler environment with no connected slots: emitting `finished`
leaves the sequence untouched. -/
def idHandlers : Handlers := fun _ l => l

/-- The `wdg.click()` call at the top of `_next`: a press is synthesized
exactly when the outgoing step delegates and its widget is a
`QAbstractButton`. -/
def pressEvs (cur : TourStep) : List TourEvent :=
  if cur.delegateClick && cur.isButton then [.pressSynthesized cur.widgetId] else []

/-- `TourManager._next`, triggered by the coachmark's `clicked` signal:
if the current step delegates and its widget is a `QAbstractButton`,
synthesize a click on it; emit the step's `finished` signal (running the
connected handlers on the sequence's list); increment `_stepIndex`;
re-read the sequence's length, and either activate the step now at
`_stepIndex`, or — when the index is out of range — call `finish` only if
`_finishNext` is set. When no current step is recorded the Python code
would fault on `None`; that situation is unreachable from the public API
and is modelled as a no-op. -/
def next (H : Handlers) (s : ManagerState) : ManagerState × List TourEvent :=
  match s.currentStep with
  | none => (s, [])
  | some cur =>
    let seq1 := H cur.id (s.sequence.getD [])
    let s1 := { s with sequence := some seq1, stepIndex := s.stepIndex + 1 }
    if h : s1.stepIndex < seq1.length then
      (activate s1 seq1[s1.stepIndex], pressEvs cur ++ [.stepFinished cur.id])
    else if s.finishNext then
      let q := finish s1
      (q.1, pressEvs cur ++ [.stepFinished cur.id] ++ q.2)
    else
      (s1, pressEvs cur ++ [.stepFinished cur.id])

/-- The coachmark closes itself (`_click` sets `_closeAllowed` and calls
`close()`) before its `clicked` signal reaches `_next`. -/
def closeMark (s : ManagerState) : ManagerState :=
  { s with mark := s.mark.map fun m => { m with shown := false } }

/-- One user confirmation of the active step: the shown coachmark closes
itself and its `clicked` signal drives `_next`. -/
def confirmStep (H : Handlers) (s : ManagerState) : ManagerState × List TourEvent :=
  next H (closeMark s)

/-- Iterate `confirmStep` `n` times, concatenating the emitted events. -/
def confirmTimes (H : Handlers) : ManagerState → Nat → ManagerState × List TourEvent
  | s, 0 => (s, [])
  | s, n + 1 =>
    let p := confirmStep H s
    let q := confirmTimes H p.1 n
    (q.1, p.2 ++ q.2)

/-- The length of the list the manager's sequence currently refers to
(`0` when no sequence is set). -/
def seqLen (s : ManagerState) : Nat := (s.sequence.getD []).length

/-- Keep only the `stepFinished` and `tourFinished` emissions of a trace. -/
def finishEvents (evs : List TourEvent) : List TourEvent :=
  evs.filter fun e =>
    match e with
    | .stepFinished _ => true
    | .tourFinished => true
    | _ => false

/-- The number of synthesized presses in a trace. -/
def countPress (evs : List TourEvent) : Nat :=
  (evs.filter fun e =>
    match e with
    | .pressSynthesized _ => true
    | _ => false).length

/-- The states of the manager reachable through its public surface, for a
fixed handler environment `H`: the fresh instance, `run` with any
sequence and flag, a user confirmation of a currently shown coachmark,
and `finish` (also reached via the escape/terminate path). -/
inductive Reachable (H : Handlers) : ManagerState → Prop where
  | init : Reachable H initState
  | runStep (s : ManagerState) (seq : List TourStep) (ft : Bool) :
      Reachable H s → Reachable H (run s seq ft).1
  | confirm (s : ManagerState) (m : MarkState) :
      Reachable H s → s.mark = some m → m.shown = true →
      Reachable H (confirmStep H s).1
  | finishCall (s : ManagerState) :
      Reachable H s → Reachable H (finish s).1

/-- The interactions a `CoachmarkWidget` can receive: `showCall` is
`show()` (called on activation and after a declined escape); `clickFrame`
is a mouse release on the highlight frame, which runs `_click`;
`escapeConfirm`/`escapeDecline` are the Escape key followed by the user
accepting or declining the termination prompt; `closeRequest` is an
external close request delivered to `closeEvent`. -/
inductive CoachEvent where
  | showCall
  | clickFrame
  | escapeConfirm
  | escapeDecline
  | closeRequest
deriving DecidableEq, Repr

/-- The `CoachmarkWidget` state the close protocol depends on: the
`_closeAllowed` flag and whether the widget is currently shown. -/
structure CoachState where
  closeAllowed : Bool
  visible : Bool
deriving DecidableEq, Repr

/-- A freshly activated coachmark: constructed with `_closeAllowed =
False`, then shown (`show()` also resets `_closeAllowed` to `False`). -/
def coachInit : CoachState := { closeAllowed := false, visible := true }

/-- One `CoachmarkWidget` interaction, following the source:
`show()` resets `_closeAllowed` and makes the widget visible;
`_click` sets `_closeAllowed` and calls `close()`, which `closeEvent`
accepts; Escape sets `_closeAllowed` and, on a declined confirmation,
calls `show()` again (resetting the flag); an external `closeEvent` is
accepted only when `_closeAllowed` is set and is ignored otherwise. -/
def coachStep (s : CoachState) : CoachEvent → CoachState
  | .showCall => { closeAllowed := false, visible := true }
  | .clickFrame => { closeAllowed := true, visible := false }
  | .escapeConfirm => { s with closeAllowed := true }
  | .escapeDecline => { closeAllowed := false, visible := true }
  | .closeRequest => if s.closeAllowed then { s with visible := false } else s

/-- Process a list of coachmark interactions in order. -/
def coachRun (s : CoachState) : List CoachEvent → CoachState
  | [] => s
  | e :: es => coachRun (coachStep s e) es

/-- A heap of Python list objects holding step identities: a reference is
an index into the heap. Reading a dangling reference yields `[]`. -/
def storeGet (store : List (List Nat)) (r : Nat) : List Nat := store.getD r []

/-- `list.append(x)` performed through reference `r`: mutates the heap
cell in place. -/
def storeAppend (store : List (List Nat)) (r : Nat) (x : Nat) : List (List Nat) :=
  store.set r (storeGet store r ++ [x])

/-- A `TourSequence` object: its `_steps` attribute is a reference to a
heap-allocated list. -/
structure TourSequenceRef where
  stepsRef : Nat
deriving DecidableEq, Repr

/-- `TourSequence.steps` from the source: `return self._steps` — the
method returns the very reference stored in `self._steps`, not a copy. -/
def TourSequenceRef.steps (seq : TourSequenceRef) : Nat := seq.stepsRef

/-- A one-step sequence used as concrete input: a delegating step whose
target is a button. -/
def c5Step : TourStep := ⟨0, 10, true, "", "", true⟩

/-- The manager state after `run([c5Step], finishTour=False)` followed by
one user confirmation: the tour has run past its last step without
finishing. -/
def c5State : ManagerState := (confirmStep idHandlers (run initState [c5Step] false).1).1

/-- A delegating step whose target widget is not a `QAbstractButton`. -/
def c4NonButton : TourStep := ⟨0, 20, false, "", "", true⟩

/-- A delegating button step used to drive a complete one-step tour. -/
def c6Step : TourStep := ⟨0, 30, true, "", "", true⟩

/-- The Idle manager state after a completed one-step tour
(`run([c6Step], finishTour=True)` plus one confirmation, which called
`finish`). -/
def c6State : ManagerState := (confirmStep idHandlers (run initState [c6Step] true).1).1

/-- First step of the dynamic-extension scenario (the demo's `step1`). -/
def c10Step : TourStep := ⟨0, 40, true, "", "", true⟩

/-- The step appended from within `c10Step`'s `finished` handler (the
demo's `step3`). -/
def c10Added : TourStep := ⟨1, 41, false, "Text bubble", "", false⟩

/-- The handler environment of the demo: `c10Step.finished` appends
`c10Added` to the running sequence; no other step has a handler. -/
def c10Handlers : Handlers := fun n l => if n = 0 then l ++ [c10Added] else l

/-- C1: with a target widget and a coachmark both registered, the gate
allows a press iff the cursor lies in the coachmark's bounds or in the
target's bounds, and consumes every press outside both. -/
theorem eventFilter_allows_iff_inside (w m : Rect) (p : Point) :
    eventFilter (some w) (some m) p .mouseButtonPress = false ↔
      (m.containsPt p = true ∨ w.containsPt p = true) := by
  simp only [eventFilter]
  by_cases hm : m.containsPt p = true
  · simp [hm]
  · by_cases hw : w.containsPt p = true <;> simp [hm, hw]

/-- C2, counterexample: with no target widget and no coachmark registered,
the gate consumes the press (returns `true`) instead of allowing it, at the
concrete cursor position `(0, 0)`. -/
theorem eventFilter_none_consumes_counterexample :
    eventFilter none none ⟨0, 0⟩ .mouseButtonPress = true := by
  rfl

/-- C2, amended: whenever the target widget or the coachmark is
unregistered (`none`), the gate consumes every press (fail-closed). -/
theorem eventFilter_none_consumes (widget mark : Option Rect) (p : Point)
    (h : widget = none ∨ mark = none) :
    eventFilter widget mark p .mouseButtonPress = true := by
  rcases h with h | h
  · subst h; cases mark <;> rfl
  · subst h; cases widget <;> rfl

/-- Witness for `eventFilter_none_consumes` at a concrete input. -/
theorem eventFilter_none_consumes_witness :
    eventFilter none (some ⟨0, 0, 10, 10⟩) ⟨3, 3⟩ .mouseButtonPress = true :=
  eventFilter_none_consumes none (some ⟨0, 0, 10, 10⟩) ⟨3, 3⟩ (Or.inl rfl)

lemma finishEvents_append (a b : List TourEvent) :
    finishEvents (a ++ b) = finishEvents a ++ finishEvents b := by
  simp [finishEvents, List.filter_append]

lemma finishEvents_pressEvs (cur : TourStep) : finishEvents (pressEvs cur) = [] := by
  rw [pressEvs]
  split <;> rfl

lemma finishEvents_stepFinished (n : Nat) :
    finishEvents [TourEvent.stepFinished n] = [TourEvent.stepFinished n] := rfl

lemma finishEvents_tourFinished :
    finishEvents [TourEvent.tourFinished] = [TourEvent.tourFinished] := rfl

lemma confirmTimes_zero (H : Handlers) (s : ManagerState) :
    confirmTimes H s 0 = (s, []) := rfl

lemma confirmTimes_succ (H : Handlers) (s : ManagerState) (n : Nat) :
    confirmTimes H s (n + 1) =
      ((confirmTimes H (confirmStep H s).1 n).1,
        (confirmStep H s).2 ++ (confirmTimes H (confirmStep H s).1 n).2) := rfl

lemma closeMark_currentStep (s : ManagerState) :
    (closeMark s).currentStep = s.currentStep := rfl

lemma closeMark_sequence (s : ManagerState) : (closeMark s).sequence = s.sequence := rfl

lemma closeMark_stepIndex (s : ManagerState) : (closeMark s).stepIndex = s.stepIndex := rfl

lemma closeMark_started (s : ManagerState) : (closeMark s).started = s.started := rfl

lemma closeMark_finishNext (s : ManagerState) :
    (closeMark s).finishNext = s.finishNext := rfl

lemma finish_events (s : ManagerState) : (finish s).2 = [TourEvent.tourFinished] := rfl

/-- `_next` in its step-advancing branch: the incremented index is still in
range of the (possibly handler-mutated) list, so the step `t` found there
activates. -/
lemma next_eq_advance (H : Handlers) (s : ManagerState) (cur t : TourStep)
    (hcur : s.currentStep = some cur)
    (hlt : s.stepIndex + 1 < (H cur.id (s.sequence.getD [])).length)
    (ht : (H cur.id (s.sequence.getD [])).get ⟨s.stepIndex + 1, hlt⟩ = t) :
    next H s =
      (activate
          { s with sequence := some (H cur.id (s.sequence.getD [])),
                   stepIndex := s.stepIndex + 1 }
          t,
        pressEvs cur ++ [TourEvent.stepFinished cur.id]) := by
  simp only [next, hcur]
  rw [dif_pos hlt, ← ht]
  rfl

/-- `_next` in its overrun branch with `_finishNext` set: `finish` runs. -/
lemma next_eq_finish (H : Handlers) (s : ManagerState) (cur : TourStep)
    (hcur : s.currentStep = some cur)
    (hge : ¬ s.stepIndex + 1 < (H cur.id (s.sequence.getD [])).length)
    (hfin : s.finishNext = true) :
    next H s =
      ((finish { s with sequence := some (H cur.id (s.sequence.getD [])),
                        stepIndex := s.stepIndex + 1 }).1,
        pressEvs cur ++ [TourEvent.stepFinished cur.id] ++ [TourEvent.tourFinished]) := by
  simp only [next, hcur]
  rw [dif_neg hge, if_pos hfin, finish_events]

/-- `_next` in its overrun branch with `_finishNext` clear: the manager
stays running, the stale mark and the out-of-range index are kept. -/
lemma next_eq_dangling (H : Handlers) (s : ManagerState) (cur : TourStep)
    (hcur : s.currentStep = some cur)
    (hge : ¬ s.stepIndex + 1 < (H cur.id (s.sequence.getD [])).length)
    (hfin : s.finishNext = false) :
    next H s =
      ({ s with sequence := some (H cur.id (s.sequence.getD [])),
                stepIndex := s.stepIndex + 1 },
        pressEvs cur ++ [TourEvent.stepFinished cur.id]) := by
  simp only [next, hcur]
  rw [dif_neg hge, if_neg (by simp [hfin])]

/-- Confirming once per remaining step from a mid-tour state (current step
`cur`, the steps `pre` already behind, the steps `rest` still ahead,
`finishNext` set) emits the remaining steps' `finished` signals in order
and then `tourFinished`. -/
lemma confirmTimes_finishEvents (rest : List TourStep) :
    ∀ (pre : List TourStep) (cur : TourStep) (s : ManagerState),
      s.started = true → s.finishNext = true →
      s.sequence = some (pre ++ cur :: rest) →
      s.stepIndex = pre.length →
      s.currentStep = some cur →
      finishEvents (confirmTimes idHandlers s (rest.length + 1)).2 =
        TourEvent.stepFinished cur.id ::
          ((rest.map fun st => TourEvent.stepFinished st.id) ++ [TourEvent.tourFinished]) := by
  induction rest with
  | nil =>
    intro pre cur s hs hf hseq hidx hcur
    simp only [List.length_nil]
    rw [confirmTimes_succ, confirmTimes_zero]
    rw [confirmStep, next_eq_finish idHandlers (closeMark s) cur
      (by rw [closeMark_currentStep, hcur])
      (by rw [closeMark_stepIndex, closeMark_sequence, hseq, hidx]; simp [idHandlers])
      (by rw [closeMark_finishNext, hf])]
    rw [List.append_nil, finishEvents_append, finishEvents_append, finishEvents_pressEvs]
    rfl
  | cons st2 rest ih =>
    intro pre cur s hs hf hseq hidx hcur
    simp only [List.length_cons]
    have hlt : (closeMark s).stepIndex + 1 <
        (idHandlers cur.id ((closeMark s).sequence.getD [])).length := by
      rw [closeMark_stepIndex, closeMark_sequence, hseq, hidx]
      simp [idHandlers]
    have h1 : idHandlers cur.id ((closeMark s).sequence.getD []) =
        (pre ++ [cur]) ++ st2 :: rest := by
      rw [closeMark_sequence, hseq]
      simp [idHandlers]
    have hge1 : (pre ++ [cur]).length ≤ (closeMark s).stepIndex + 1 := by
      rw [closeMark_stepIndex, hidx]
      simp
    have hget : (idHandlers cur.id ((closeMark s).sequence.getD [])).get
        ⟨(closeMark s).stepIndex + 1, hlt⟩ = st2 := by
      simp only [List.get_eq_getElem]
      rw [List.getElem_of_eq h1, List.getElem_append_right hge1]
      simp [closeMark, hidx]
    rw [confirmTimes_succ]
    rw [confirmStep, next_eq_advance idHandlers (closeMark s) cur st2
      (by rw [closeMark_currentStep, hcur]) hlt hget]
    dsimp only
    rw [finishEvents_append, finishEvents_append, finishEvents_pressEvs]
    rw [ih (pre ++ [cur]) st2 _
      (by simp [activate, closeMark, hs])
      (by simp [activate, closeMark, hf])
      (by simp [activate, closeMark, hseq, idHandlers])
      (by simp [activate, closeMark, hidx])
      (by simp [activate])]
    rfl

/-- C3: running a non-empty tour with `finishTour = true` and confirming
once per step emits exactly one `finished` per step, in sequence order,
followed by exactly one `tourFinished`. -/
theorem run_confirm_each_step_trace (seq : List TourStep) (h : seq ≠ []) :
    finishEvents ((run initState seq true).2 ++
        (confirmTimes idHandlers (run initState seq true).1 seq.length).2) =
      (seq.map fun st => TourEvent.stepFinished st.id) ++ [TourEvent.tourFinished] := by
  match seq, h with
  | cur :: rest, _ =>
    rw [finishEvents_append]
    have hrun : (run initState (cur :: rest) true).2 = [TourEvent.tourStarted] := by
      rfl
    rw [hrun]
    have hlen : (cur :: rest).length = rest.length + 1 := by simp
    rw [hlen]
    rw [confirmTimes_finishEvents rest [] cur (run initState (cur :: rest) true).1
      (by simp [run, start, activate, initState]) (by simp [run, start, activate, initState])
      (by simp [run, start, activate, initState]) (by simp [run, start, activate, initState])
      (by simp [run, start, activate, initState])]
    simp [finishEvents]

/-- Witness for `run_confirm_each_step_trace` on a concrete one-step tour. -/
theorem run_confirm_each_step_trace_witness :
    ([(⟨0, 10, true, "", "", true⟩ : TourStep)] ≠ []) ∧
      finishEvents ((run initState [⟨0, 10, true, "", "", true⟩] true).2 ++
          (confirmTimes idHandlers
            (run initState [⟨0, 10, true, "", "", true⟩] true).1 1).2) =
        [TourEvent.stepFinished 0, TourEvent.tourFinished] :=
  ⟨by decide, run_confirm_each_step_trace [⟨0, 10, true, "", "", true⟩] (by decide)⟩

lemma countPress_append (a b : List TourEvent) :
    countPress (a ++ b) = countPress a + countPress b := by
  simp [countPress, List.filter_append]

lemma countPress_pressEvs (cur : TourStep) :
    countPress (pressEvs cur) = if cur.delegateClick && cur.isButton then 1 else 0 := by
  rw [pressEvs]
  split <;> rfl

lemma countPress_stepFinished (n : Nat) :
    countPress [TourEvent.stepFinished n] = 0 := rfl

/-- C4, counterexample: a step with `delegateClick = true` whose target is
not a `QAbstractButton`: advancing past it synthesizes zero presses, not
exactly one. -/
theorem press_nonbutton_counterexample :
    c4NonButton.delegateClick = true ∧
      countPress (confirmStep idHandlers (run initState [c4NonButton] true).1).2 = 0 := by
  decide

/-- C4, amended: advancing past the current step synthesizes exactly one
press when it delegates and its target is a button, and zero presses
otherwise (in particular zero whenever `delegateClick` is false). -/
theorem next_press_count (H : Handlers) (s : ManagerState) (cur : TourStep)
    (h : s.currentStep = some cur) :
    countPress (next H s).2 =
      if cur.delegateClick && cur.isButton then 1 else 0 := by
  simp only [next, h]
  split
  · rw [countPress_append, countPress_pressEvs, countPress_stepFinished, Nat.add_zero]
  · split
    · rw [finish_events, countPress_append, countPress_append, countPress_pressEvs]
      rfl
    · rw [countPress_append, countPress_pressEvs, countPress_stepFinished, Nat.add_zero]

/-- Witness for `next_press_count` on a concrete delegating button step. -/
theorem next_press_count_witness :
    (run initState [c6Step] true).1.currentStep = some c6Step ∧
      countPress (next idHandlers (run initState [c6Step] true).1).2 =
        if c6Step.delegateClick && c6Step.isButton then 1 else 0 :=
  ⟨by decide, next_press_count idHandlers (run initState [c6Step] true).1 c6Step (by decide)⟩

lemma finish_state_mark (s : ManagerState) : (finish s).1.mark = none := by
  rw [finish]
  dsimp only
  split <;> rfl

lemma finish_state_started (s : ManagerState) : (finish s).1.started = false := by
  rw [finish]
  dsimp only
  split <;> rfl

/-- The two-sided part of the coachmark invariant that does survive:
a non-null mark implies `started`, and `started` with an in-range index
implies a non-null mark. -/
def Inv (s : ManagerState) : Prop :=
  (s.mark ≠ none → s.started = true) ∧
  (s.started = true → s.stepIndex < seqLen s → s.mark ≠ none)

lemma inv_run (s : ManagerState) (seq : List TourStep) (ft : Bool) :
    Inv (run s seq ft).1 := by
  rcases seq with _ | ⟨st, rest⟩ <;> by_cases hst : s.started = true <;>
    simp [run, start, activate, hst, Inv, seqLen]

lemma inv_confirmStep (H : Handlers) (s : ManagerState) (h : Inv s)
    (hm : s.mark ≠ none) : Inv (confirmStep H s).1 := by
  have hst : s.started = true := h.1 hm
  have hmark : (closeMark s).mark ≠ none := by
    simp only [closeMark, ne_eq, Option.map_eq_none']
    exact hm
  rw [confirmStep]
  rcases hcur : (closeMark s).currentStep with _ | cur
  · simp only [next, hcur]
    exact ⟨fun _ => by rw [closeMark_started, hst], fun _ _ => hmark⟩
  · simp only [next, hcur]
    split
    · exact ⟨fun _ => by simp [activate, closeMark_started, closeMark, hst],
        fun _ _ => by simp [activate]⟩
    · split
      · refine ⟨fun hmm => absurd (finish_state_mark _) hmm, fun hss _ => ?_⟩
        rw [finish_state_started] at hss
        exact absurd hss (by simp)
      · exact ⟨fun _ => by simp [closeMark_started, closeMark, hst],
          fun _ _ => by simpa [closeMark] using hmark⟩

lemma inv_finish (s : ManagerState) : Inv (finish s).1 := by
  refine ⟨fun hmm => absurd (finish_state_mark _) hmm, fun hss _ => ?_⟩
  rw [finish_state_started] at hss
  exact absurd hss (by simp)

/-- C5, counterexample: run a one-step tour with `finishTour = False` and
confirm the step. The reached state still holds the (closed) coachmark in
`_mark` while `_stepIndex` equals the sequence length, so "`coachmark` is
non-null iff `started` and `stepIndex` is in range" fails in a reachable
state — precisely after the last step completes with
`finishOnComplete = false`. -/
theorem coachmark_invariant_counterexample :
    Reachable idHandlers c5State ∧ c5State.mark ≠ none ∧
      ¬ (c5State.started = true ∧ c5State.stepIndex < seqLen c5State) := by
  refine ⟨?_, by decide, by decide⟩
  exact Reachable.confirm (run initState [c5Step] false).1 ⟨c5Step, true⟩
    (Reachable.runStep initState [c5Step] false Reachable.init) (by decide) rfl

/-- C5, amended: in every reachable manager state, a non-null coachmark
implies `started`, and `started` together with an in-range `stepIndex`
implies a non-null coachmark; the converse direction (non-null coachmark
implies an in-range index) is the part that fails. -/
theorem reachable_coachmark_invariant (H : Handlers) (s : ManagerState)
    (h : Reachable H s) :
    (s.mark ≠ none → s.started = true) ∧
    (s.started = true → s.stepIndex < seqLen s → s.mark ≠ none) := by
  induction h with
  | init => exact ⟨by simp [initState], by simp [initState, seqLen]⟩
  | runStep s seq ft _ _ => exact inv_run s seq ft
  | confirm s m _ hm _ ih => exact inv_confirmStep H s ih (by rw [hm]; simp)
  | finishCall s _ _ => exact inv_finish s

/-- Witness for `reachable_coachmark_invariant` at the freshly constructed
manager. -/
theorem reachable_coachmark_invariant_witness :
    (initState.mark ≠ none → initState.started = true) ∧
    (initState.started = true → initState.stepIndex < seqLen initState →
      initState.mark ≠ none) :=
  reachable_coachmark_invariant idHandlers initState Reachable.init

/-- C6, counterexample: from the Idle state left by a completed tour,
calling `finish()` again emits `tourFinished` once more — the second call
is not emission-free, contrary to the claim's "does not emit tourFinished
again". -/
theorem finish_idle_emits_again_counterexample :
    c6State.started = false ∧ c6State.mark = none ∧
      (finish c6State).2 = [TourEvent.tourFinished] := by
  decide

/-- C6, amended: `finish()` from an Idle state (not started, no mark, no
overlay, filter not installed) leaves the whole manager state unchanged,
but still emits `tourFinished` on every call. -/
theorem finish_idle_state_idempotent (s : ManagerState)
    (h1 : s.started = false) (h2 : s.mark = none) (h3 : s.overlay = false)
    (h4 : s.gateInstalled = false) :
    (finish s).1 = s ∧ (finish s).2 = [TourEvent.tourFinished] := by
  obtain ⟨st, fn, si, sq, mk, cs, ov, gi, gw, gm⟩ := s
  simp_all [finish]

/-- Witness for `finish_idle_state_idempotent` at the post-tour state. -/
theorem finish_idle_state_idempotent_witness :
    (finish c6State).1 = c6State ∧ (finish c6State).2 = [TourEvent.tourFinished] :=
  finish_idle_state_idempotent c6State (by decide) (by decide) (by decide) (by decide)

/-- C7: `run()` from Idle with an empty sequence transitions to Running —
the filter is installed and `tourStarted` is emitted — but activates no
step and constructs no coachmark: an inert no-op state. -/
theorem run_empty_inert (s : ManagerState) (ft : Bool)
    (h1 : s.started = false) (h2 : s.mark = none) :
    (run s [] ft).1.started = true ∧
    (run s [] ft).1.gateInstalled = true ∧
    (run s [] ft).2 = [TourEvent.tourStarted] ∧
    (run s [] ft).1.mark = none ∧
    (run s [] ft).1.currentStep = s.currentStep ∧
    (run s [] ft).1.stepIndex = s.stepIndex := by
  simp [run, start, h1, h2]

/-- Witness for `run_empty_inert` at the freshly constructed manager. -/
theorem run_empty_inert_witness :
    (run initState [] true).1.started = true ∧
    (run initState [] true).1.gateInstalled = true ∧
    (run initState [] true).2 = [TourEvent.tourStarted] ∧
    (run initState [] true).1.mark = none ∧
    (run initState [] true).1.currentStep = initState.currentStep ∧
    (run initState [] true).1.stepIndex = initState.stepIndex :=
  run_empty_inert initState true (by decide) (by decide)

lemma coachRun_safe (evs : List CoachEvent) :
    ∀ s : CoachState,
      (∀ e ∈ evs, e ≠ CoachEvent.clickFrame ∧ e ≠ CoachEvent.escapeConfirm) →
      s.closeAllowed = false → s.visible = true →
      (coachRun s evs).visible = true ∧ (coachRun s evs).closeAllowed = false := by
  induction evs with
  | nil => exact fun s _ h2 h1 => ⟨h1, h2⟩
  | cons e es ih =>
    intro s h h2 h1
    have hes : ∀ e' ∈ es, e' ≠ CoachEvent.clickFrame ∧ e' ≠ CoachEvent.escapeConfirm :=
      fun e' he' => h e' (List.mem_cons_of_mem e he')
    have he := h e (List.mem_cons_self e es)
    rw [coachRun]
    cases e with
    | showCall => exact ih _ hes rfl rfl
    | clickFrame => exact absurd rfl he.1
    | escapeConfirm => exact absurd rfl he.2
    | escapeDecline => exact ih _ hes rfl rfl
    | closeRequest =>
      have : coachStep s .closeRequest = s := by
        rw [coachStep, if_neg (by rw [h2]; simp)]
      rw [this]
      exact ih s hes h2 h1

/-- C8: starting from a freshly shown coachmark, any interaction sequence
containing no frame click and no confirmed escape — external close
requests included — leaves the coachmark visible with `_closeAllowed`
still unset: a close is accepted only through the click or escape/cancel
path. -/
theorem coachmark_ignores_unsanctioned_close (evs : List CoachEvent)
    (h : ∀ e ∈ evs, e ≠ CoachEvent.clickFrame ∧ e ≠ CoachEvent.escapeConfirm) :
    (coachRun coachInit evs).visible = true ∧
    (coachRun coachInit evs).closeAllowed = false :=
  coachRun_safe evs coachInit h rfl rfl

/-- Witness for `coachmark_ignores_unsanctioned_close` on a concrete
interaction sequence with two external close requests and one declined
escape. -/
theorem coachmark_ignores_unsanctioned_close_witness :
    (coachRun coachInit [CoachEvent.closeRequest, CoachEvent.showCall,
        CoachEvent.escapeDecline, CoachEvent.closeRequest]).visible = true ∧
    (coachRun coachInit [CoachEvent.closeRequest, CoachEvent.showCall,
        CoachEvent.escapeDecline, CoachEvent.closeRequest]).closeAllowed = false :=
  coachmark_ignores_unsanctioned_close _ (by decide)

/-- C9, counterexample: on the concrete heap holding one empty list,
appending `7` through the reference returned by `steps()` changes the
sequence's own step list — it does not stay unchanged as a read-only view
would guarantee. -/
theorem steps_mutation_counterexample :
    ¬ storeGet (storeAppend [[]] (TourSequenceRef.steps ⟨0⟩) 7) (0 : Nat) =
        storeGet [[]] (0 : Nat) := by
  decide

/-- C9, amended: `steps()` returns the internal list reference itself, so
for any valid heap, appending an element through the returned reference
appends it to the sequence's own step list. -/
theorem steps_returns_internal_alias (store : List (List Nat))
    (seq : TourSequenceRef) (x : Nat) (h : seq.stepsRef < store.length) :
    storeGet (storeAppend store seq.steps x) seq.stepsRef =
      storeGet store seq.stepsRef ++ [x] := by
  rw [TourSequenceRef.steps, storeAppend, storeGet,
    List.getD_eq_getElem _ _ (by simp [h])]
  simp

/-- Witness for `steps_returns_internal_alias` on a concrete heap. -/
theorem steps_returns_internal_alias_witness :
    storeGet (storeAppend [[1, 2]] (TourSequenceRef.steps ⟨0⟩) 9) (0 : Nat) =
      storeGet [[1, 2]] (0 : Nat) ++ [9] :=
  steps_returns_internal_alias [[1, 2]] ⟨0⟩ 9 (by decide)

/-- C10: when the current step is the last one and its `finished` handler
appends a step to the running sequence, `_next` re-reads the new length
after the emission, so the appended step is activated as the next step and
no `tourFinished` is emitted — regardless of the `finishTour` flag. -/
theorem handler_append_extends_tour (H : Handlers) (s : ManagerState)
    (cur t : TourStep) (ss : List TourStep)
    (hcur : s.currentStep = some cur)
    (hseq : s.sequence = some ss)
    (hidx : s.stepIndex + 1 = ss.length)
    (hH : H cur.id ss = ss ++ [t]) :
    (next H s).1.currentStep = some t ∧
    (next H s).1.mark = some { step := t, shown := true } ∧
    (next H s).1.stepIndex = ss.length ∧
    (next H s).1.sequence = some (ss ++ [t]) ∧
    TourEvent.tourFinished ∉ (next H s).2 := by
  have hlist : H cur.id (s.sequence.getD []) = ss ++ [t] := by
    rw [hseq]
    simpa using hH
  have hlt : s.stepIndex + 1 < (H cur.id (s.sequence.getD [])).length := by
    rw [hlist]
    simp [hidx]
  have hget : (H cur.id (s.sequence.getD [])).get ⟨s.stepIndex + 1, hlt⟩ = t := by
    simp only [List.get_eq_getElem]
    rw [List.getElem_of_eq hlist]
    exact List.getElem_concat_length ss t _ hidx _
  rw [next_eq_advance H s cur t hcur hlt hget]
  refine ⟨by simp [activate], by simp [activate],
    by simp [activate, hidx], by simp [activate, hlist], ?_⟩
  rw [pressEvs]
  split <;> simp

/-- Witness for `handler_append_extends_tour` on the demo-style scenario:
a one-step tour run with `finishTour = True`, whose step's handler appends
`c10Added`. -/
theorem handler_append_extends_tour_witness :
    (next c10Handlers (run initState [c10Step] true).1).1.currentStep = some c10Added ∧
    (next c10Handlers (run initState [c10Step] true).1).1.mark =
      some { step := c10Added, shown := true } ∧
    (next c10Handlers (run initState [c10Step] true).1).1.stepIndex = [c10Step].length ∧
    (next c10Handlers (run initState [c10Step] true).1).1.sequence =
      some ([c10Step] ++ [c10Added]) ∧
    TourEvent.tourFinished ∉ (next c10Handlers (run initState [c10Step] true).1).2 :=
  handler_append_extends_tour c10Handlers (run initState [c10Step] true).1
    c10Step c10Added [c10Step] (by decide) (by decide) (by decide) (by decide)

end QtTour
